import Mathlib

/-!
Shallow embedding of the paginated-retrieval engine of the bavapi SDK:
the query descriptor (`bavapi/query.py`), the page-count planner and query
orchestrator (`bavapi/http.py`), the batching backport (`bavapi/_batched.py`),
and the fetcher/retry machinery (`bavapi/_fetcher.py`).

Python `Optional[int]` fields are modelled as `Option Nat`; Python truthiness
(`x or y` treating both `None` and `0` as falsy) is modelled explicitly by
`truthy` / `pyOr` / `pyOrOpt`.  Asynchronous operations are modelled as pure
functions from an attempt index (or a descriptor) to an `Except`-valued
outcome, and raised exceptions as `Except.error` / `Option` values.
-/

namespace BavApi

/-- Python truthiness of an optional integer: `None` and `0` are falsy. -/
def truthy (a : Option Nat) : Bool :=
  match a with
  | none => false
  | some v => v != 0

/-- Python `a or b` where `a` is an optional integer and `b` an integer:
yields `b` when `a` is `None` or `0`. -/
def pyOr (a : Option Nat) (b : Nat) : Nat :=
  match a with
  | none => b
  | some v => if v = 0 then b else v

/-- Python `a or b` on two optional integers: yields `b` when `a` is falsy. -/
def pyOrOpt (a b : Option Nat) : Option Nat :=
  if truthy a then a else b

/-- The query descriptor of `bavapi/query.py` (`class Query`).  The filter
payload is abstracted by a type parameter `F`; field and include lists,
metric keys and the sort key are carried opaquely, since the engine only
copies them around. -/
structure Query (F : Type) where
  item_id : Option Nat := none
  filters : Option F := none
  fields : Option (List String) := none
  «include» : Option (List String) := none
  metric_keys : Option (List String) := none
  metric_group_keys : Option (List String) := none
  sort : Option String := none
  page : Option Nat := none
  per_page : Option Nat := none
  max_pages : Option Nat := none
deriving DecidableEq

/-- `Query.with_page` from `bavapi/query.py`: a new descriptor with the three
pagination fields overridden (`page or self.page` etc., Python truthiness),
every other field copied unchanged.  In the source the copy happens through
`model_construct` over `model_dump(exclude={page, per_page, max_pages,
filters})` plus an explicit `filters=self.filters`, which reproduces every
non-pagination field of the original descriptor. -/
def Query.with_page (q : Query F) (page per_page max_pages : Option Nat) :
    Query F :=
  { q with
    page := pyOrOpt page q.page
    per_page := pyOrOpt per_page q.per_page
    max_pages := pyOrOpt max_pages q.max_pages }

/-- `Query.paginated` from `bavapi/query.py`: descriptors for pages
`start_page, ..., start_page + n_pages - 1`, where `start_page = self.page
or 1`, each created by `with_page(p, per_page or self.per_page)`. -/
def Query.paginated (q : Query F) (n_pages : Nat) (per_page : Option Nat) :
    List (Query F) :=
  (List.range n_pages).map fun i =>
    q.with_page (some (pyOr q.page 1 + i)) (pyOrOpt per_page q.per_page) none

/-- `Query.is_single_page` from `bavapi/query.py`:
`self.max_pages == 1 or (bool(self.page) and not (self.per_page or
self.max_pages))`. -/
def Query.is_single_page (q : Query F) : Bool :=
  q.max_pages == some 1 || (truthy q.page && !(truthy q.per_page || truthy q.max_pages))

/-- Ceiling division on naturals; equals `math.ceil(a / b)` for `b > 0`. -/
def ceil_div (a b : Nat) : Nat := (a + b - 1) / b

/-- `_calculate_pages` from `bavapi/http.py`:
`total_pages = ceil(total / per_page) - (page - 1 if page else 0)`,
then `max_pages` is returned instead when `max_pages and max_pages <=
total_pages`.  The result is an integer: a starting page beyond the last
page makes it zero or negative. -/
def calculate_pages (page : Option Nat) (per_page : Nat)
    (max_pages : Option Nat) (total : Nat) : Int :=
  let total_pages : Int :=
    (ceil_div total per_page : Int) -
      (match page with
       | some p => if p ≠ 0 then (p : Int) - 1 else 0
       | none => 0)
  match max_pages with
  | some m => if m ≠ 0 ∧ (m : Int) ≤ total_pages then (m : Int) else total_pages
  | none => total_pages

/-- Failure policy of `PageFetcher` (`on_errors` in `bavapi/_fetcher.py`). -/
inductive OnErrors where
  | warn
  | raise
deriving DecidableEq

/-- `Result` record from `bavapi/_fetcher.py`: page number plus value. -/
structure Result (T : Type) where
  page : Nat
  result : T
deriving DecidableEq

/-- `Error` record from `bavapi/_fetcher.py`: page number plus exception.
Exceptions are abstracted by a type parameter `E`. -/
structure Error (E : Type) where
  page : Nat
  exception : E
deriving DecidableEq

/-- State of a `PageFetcher` (`bavapi/_fetcher.py`): the failure policy and
the two append-only lists `_results` and `_errors`, kept in arrival order.
The progress bar of the source only reports progress and is omitted. -/
structure PageFetcher (T E : Type) where
  on_errors : OnErrors := OnErrors.warn
  _results : List (Result T) := []
  _errors : List (Error E) := []
deriving DecidableEq

/-- Outcome of one `fetch_page` call: the updated fetcher state and the
exception re-raised to the caller, if any. -/
structure FetchOutcome (T E : Type) where
  fetcher : PageFetcher T E
  raised : Option E
deriving DecidableEq

/-- `PageFetcher.fetch_page` from `bavapi/_fetcher.py`.  The awaited result
of `func(endpoint, query)` is supplied as an `Except E T`.  The recorded page
number is `query.page or (len(self._results) + 1)`; a success appends a
`Result`, a failure appends an `Error` and re-raises exactly when the policy
is `raise`. -/
def PageFetcher.fetch_page (f : PageFetcher T E) (query : Query F)
    (res : Except E T) : FetchOutcome T E :=
  let page := pyOr query.page (f._results.length + 1)
  match res with
  | Except.ok v =>
      { fetcher := { f with _results := f._results ++ [Result.mk page v] }
        raised := none }
  | Except.error e =>
      { fetcher := { f with _errors := f._errors ++ [Error.mk page e] }
        raised := if f.on_errors = OnErrors.raise then some e else none }

/-- Ordering of `Result` records by page number, the sort key used by the
`results` property. -/
def Result.byPage (a b : Result T) : Prop := a.page ≤ b.page

/-- Ordering of `Error` records by page number, the sort key used by the
`errors` property. -/
def Error.byPage (a b : Error E) : Prop := a.page ≤ b.page

instance : DecidableRel (Result.byPage (T := T)) :=
  fun a b => Nat.decLe a.page b.page

instance : DecidableRel (Error.byPage (E := E)) :=
  fun a b => Nat.decLe a.page b.page

instance : IsTotal (Result T) Result.byPage :=
  ⟨fun a b => Nat.le_total a.page b.page⟩

instance : IsTrans (Result T) Result.byPage :=
  ⟨fun _ _ _ h h2 => Nat.le_trans h h2⟩

instance : IsTotal (Error E) Error.byPage :=
  ⟨fun a b => Nat.le_total a.page b.page⟩

instance : IsTrans (Error E) Error.byPage :=
  ⟨fun _ _ _ h h2 => Nat.le_trans h h2⟩

/-- The `results` property of `PageFetcher`: the recorded values sorted by
ascending page number, page numbers dropped.  Python `sorted` is a stable
sort; a stable insertion sort models it. -/
def PageFetcher.results (f : PageFetcher T E) : List T :=
  (List.insertionSort Result.byPage f._results).map Result.result

/-- The `errors` property of `PageFetcher`: the recorded error records
sorted by ascending page number. -/
def PageFetcher.errors (f : PageFetcher T E) : List (Error E) :=
  List.insertionSort Error.byPage f._errors

deriving instance DecidableEq for Except

/-- Trace of one run of the wrapper produced by `aretry`: the final outcome
(value returned or exception raised to the caller), the number of attempts
of the underlying operation, and the number of `asyncio.sleep(delay)` waits
performed between attempts. -/
structure RetryRun (E A : Type) where
  outcome : Except E A
  attempts : Nat
  sleeps : Nat
deriving DecidableEq

/-- The `for retry_count in range(retries + 1)` loop inside `aretry`
(`bavapi/_fetcher.py`).  The underlying operation is modelled as a function
from the attempt index to its outcome; `idx` is the current attempt index
and `fuel` the number of loop iterations left.  `none` means the loop body
never ran (it fell through, which happens only when the fuel is zero, i.e.
`retries < 0`).  A failed final iteration re-raises; a failed non-final
iteration sleeps once and continues. -/
def retryLoop (op : Nat → Except E A) : Nat → Nat → Option (RetryRun E A)
  | _, 0 => none
  | idx, fuel + 1 =>
    match op idx with
    | Except.ok a => some (RetryRun.mk (Except.ok a) 1 0)
    | Except.error e =>
      if fuel = 0 then some (RetryRun.mk (Except.error e) 1 0)
      else
        match retryLoop op (idx + 1) fuel with
        | some r => some (RetryRun.mk r.outcome (r.attempts + 1) (r.sleeps + 1))
        | none => none

/-- `aretry` from `bavapi/_fetcher.py`, as the trace of one call of the
returned wrapper: run the retry loop over `range(retries + 1)`; if the loop
never ran (negative `retries`), fall through to one bare call of the
operation. -/
def aretry (op : Nat → Except E A) (retries : Int) : RetryRun E A :=
  match retryLoop op 0 (retries + 1).toNat with
  | some r => r
  | none => RetryRun.mk (op 0) 1 0

/-- The batch-yielding loop of the `batched` backport
(`bavapi/_batched.py`): repeatedly slice off the next `n` items until the
input is exhausted.  Only reached with `n ≥ 1` (the constructor rejects
smaller sizes), which makes every slice nonempty and the recursion
well-founded. -/
def batchedGroups (n : Nat) : List T → List (List T)
  | [] => []
  | x :: xs => (x :: xs.take (n - 1)) :: batchedGroups n (xs.drop (n - 1))
termination_by l => l.length
decreasing_by
  simp only [List.length_drop, List.length_cons]
  omega

/-- `batched` from `bavapi/_batched.py`: `ValueError` when `n < 1`,
otherwise the finite sequence of groups. -/
def batched (l : List T) (n : Int) : Except String (List (List T)) :=
  if n < 1 then Except.error "n must be at least one"
  else Except.ok (batchedGroups n.toNat l)

/-- The JSON `data` entry of a Fount response: either a JSON object (a
single item, for identifier-targeted queries) or a JSON array of items.
Python `if not data:` treats the empty object and the empty array as falsy. -/
inductive Payload (T : Type) where
  | dict (entries : List (String × T))
  | list (items : List T)
deriving DecidableEq

/-- Python falsiness of a `data` payload: empty object or empty array. -/
def Payload.isEmptyData : Payload T → Bool
  | Payload.dict entries => entries.isEmpty
  | Payload.list items => items.isEmpty

/-- The parts of an HTTP response that `HTTPClient.query` reads: the `data`
payload, `meta.total`, and the `x-ratelimit-remaining` /
`x-ratelimit-limit` headers. -/
structure Response (T : Type) where
  data : Payload T
  total : Nat
  limit_remaining : Nat
  limit_total : Nat
deriving DecidableEq

/-- The configuration of `HTTPClient` (`bavapi/http.py`) that the
orchestration logic reads. -/
structure HTTPClient where
  per_page : Nat := 100
  batch_size : Nat := 10
  n_workers : Nat := 2
  retries : Int := 3
  on_errors : OnErrors := OnErrors.warn
deriving DecidableEq

/-- Terminal outcome of one `HTTPClient.query` call:
`noData` models `DataNotFoundError`, `singleItem` the dict payload shortcut,
`singlePage` the single-page shortcut returning the handshake items,
`rateLimited` models `RateLimitExceededError` with the values it cites
(computed page count, remaining quota, total quota), and `multiPage` the
path that plans `n_pages` and dispatches the batched page requests. -/
inductive QueryOutcome (T : Type) where
  | noData
  | singleItem (entries : List (String × T))
  | singlePage (items : List T)
  | rateLimited (n_pages : Int) (remaining : Nat) (total_limit : Nat)
  | multiPage (n_pages : Int)
deriving DecidableEq

/-- The descriptor of the handshake request issued by `HTTPClient.query`:
`query.with_page(per_page=init_per_page)` where `init_per_page` is the
effective page size if the query is single-page and `1` otherwise. -/
def handshakeQuery (c : HTTPClient) (q : Query F) : Query F :=
  q.with_page none
    (some (if q.is_single_page then pyOr q.per_page c.per_page else 1)) none

/-- `HTTPClient.query` from `bavapi/http.py`, lines 295-327, as a pure
function of the transport (a map from descriptors to responses).  Returns
the terminal outcome together with the list of descriptors for which a
transport request is issued: the handshake always, followed (on the
multi-page path only) by the per-page descriptors that `get_pages` feeds to
the batching workers, one per planned page. -/
def queryRun (c : HTTPClient) (transport : Query F → Response T)
    (q : Query F) : QueryOutcome T × List (Query F) :=
  match (transport (handshakeQuery c q)).data with
  | Payload.dict entries =>
    if entries.isEmpty then (QueryOutcome.noData, [handshakeQuery c q])
    else (QueryOutcome.singleItem entries, [handshakeQuery c q])
  | Payload.list items =>
    if items.isEmpty then (QueryOutcome.noData, [handshakeQuery c q])
    else if q.is_single_page ||
        items.length == (transport (handshakeQuery c q)).total then
      (QueryOutcome.singlePage items, [handshakeQuery c q])
    else if ((transport (handshakeQuery c q)).limit_remaining : Int) <
        calculate_pages q.page (pyOr q.per_page c.per_page) q.max_pages
          (transport (handshakeQuery c q)).total then
      (QueryOutcome.rateLimited
        (calculate_pages q.page (pyOr q.per_page c.per_page) q.max_pages
          (transport (handshakeQuery c q)).total)
        (transport (handshakeQuery c q)).limit_remaining
        (transport (handshakeQuery c q)).limit_total,
        [handshakeQuery c q])
    else
      (QueryOutcome.multiPage
        (calculate_pages q.page (pyOr q.per_page c.per_page) q.max_pages
          (transport (handshakeQuery c q)).total),
        handshakeQuery c q ::
          (q.with_page none (some (pyOr q.per_page c.per_page)) none).paginated
            (calculate_pages q.page (pyOr q.per_page c.per_page) q.max_pages
              (transport (handshakeQuery c q)).total).toNat none)

/-- Modelled from the spec: the spec's definition of an "inherently
single-page" descriptor — "explicit page number set with no page-size or
max-page override".  Stated for comparison with the code's
`Query.is_single_page`. -/
def specInherentlySinglePage (q : Query F) : Prop :=
  truthy q.page = true ∧ truthy q.per_page = false ∧ truthy q.max_pages = false

/-- The condition the code actually uses for the single-page shortcut:
`max_pages` equals exactly `1`, or an explicit page number is set with no
`per_page`/`max_pages` override.  This is `Query.is_single_page` as a
proposition. -/
def inherentlySinglePage (q : Query F) : Prop :=
  q.max_pages = some 1 ∨
    (truthy q.page = true ∧ truthy q.per_page = false ∧ truthy q.max_pages = false)

/-- Modelled from the spec: the page-count planner formula as the spec
states it — `ceil(total / page_size) - (start_page - 1)` with the cap
returned instead when one is set and does not exceed that value. -/
def plannerSpecification (start_page per_page : Nat) (max_pages : Option Nat)
    (total : Nat) : Int :=
  let total_pages : Int := (ceil_div total per_page : Int) - ((start_page : Int) - 1)
  match max_pages with
  | some m => if (m : Int) ≤ total_pages then (m : Int) else total_pages
  | none => total_pages

instance (q : Query F) : Decidable (specInherentlySinglePage q) :=
  decidable_of_iff
    (truthy q.page = true ∧ truthy q.per_page = false ∧ truthy q.max_pages = false)
    Iff.rfl

instance (q : Query F) : Decidable (inherentlySinglePage q) :=
  decidable_of_iff
    (q.max_pages = some 1 ∨
      (truthy q.page = true ∧ truthy q.per_page = false ∧ truthy q.max_pages = false))
    Iff.rfl

/-- An `HTTPClient` with all defaults (`per_page = 100`). -/
def defaultClient : HTTPClient := {}

/-- A descriptor with `max_pages = 1` only: single-page for the code, but not
"inherently single-page" in the sense of the spec sentence. -/
def c1CounterQuery : Query Unit := { max_pages := some 1 }

/-- A transport whose handshake returns 3 of 30 items with ample quota. -/
def c1Transport : Query Unit → Response Nat :=
  fun _ => Response.mk (Payload.list [1, 2, 3]) 30 500 500

/-- A descriptor with an explicit page and no page-size or max-page override. -/
def c1AmendedQuery : Query Unit := { page := some 2 }

/-- A transport whose handshake returns 2 of 50 items with ample quota. -/
def c1AmendedTransport : Query Unit → Response Nat :=
  fun _ => Response.mk (Payload.list [5, 6]) 50 100 100

/-- A descriptor with no pagination fields at all. -/
def c2Query : Query Unit := {}

/-- A transport reporting 2100 total items (21 pages of 100) but only 10
requests remaining out of 500. -/
def c2Transport : Query Unit → Response Nat :=
  fun _ => Response.mk (Payload.list [7]) 2100 10 500

/-- An operation that fails on its first two attempts and then succeeds. -/
def c3Op : Nat → Except Nat Nat :=
  fun i => if i < 2 then Except.error i else Except.ok 42

/-- A fetcher configured with the `raise` failure policy. -/
def c4Fetcher : PageFetcher Nat Nat := { on_errors := OnErrors.raise }

/-- A descriptor targeting page 4. -/
def c4Query : Query Unit := { page := some 4 }

/-- A fetcher fed successful page results in completion order 5, 1, 3, 2, 4,
each carrying its page number as its value. -/
def c6Fetcher : PageFetcher Nat Unit :=
  [5, 1, 3, 2, 4].foldl
    (fun f p =>
      (f.fetch_page ({ page := some p } : Query Unit) (Except.ok p)).fetcher)
    (PageFetcher.mk OnErrors.warn [] [])

/-- A descriptor with several non-pagination fields populated. -/
def c8Query : Query Nat :=
  { item_id := some 9
    filters := some 3
    fields := some ["name"]
    sort := some "-name"
    page := some 1
    per_page := some 25 }

/-- A fetcher that has already recorded results for two pages. -/
def c10Fetcher : PageFetcher Nat Nat :=
  { _results := [Result.mk 1 11, Result.mk 2 22] }

/-- A descriptor with no page number set. -/
def c10Query : Query Unit := {}

theorem is_single_page_iff (q : Query F) :
    q.is_single_page = true ↔ inherentlySinglePage q := by
  simp [Query.is_single_page, inherentlySinglePage]

/-- Claim C5: for every total item count, page size at least 1, optional
starting page and optional max-page cap (both positive when present), the
page-count planner `_calculate_pages` returns
`ceil(total / per_page) - (start_page - 1)` with `start_page` defaulting to
1 when unset, except that a set cap not greater than that value is returned
instead; in particular the three concrete instances of the spec hold. -/
theorem C5_page_planner (page max_pages : Option Nat) (per_page total : Nat)
    (hper : 1 ≤ per_page)
    (hpage : ∀ p, page = some p → 1 ≤ p)
    (hmax : ∀ m, max_pages = some m → 1 ≤ m) :
    calculate_pages page per_page max_pages total =
      plannerSpecification (pyOr page 1) per_page max_pages total ∧
    calculate_pages (some 1) 100 none 2000 = 20 ∧
    calculate_pages (some 5) 100 none 2000 = 16 ∧
    calculate_pages none 25 (some 2) 100 = 2 := by
  refine ⟨?_, by decide, by decide, by decide⟩
  unfold calculate_pages plannerSpecification pyOr
  cases page with
  | none =>
    cases max_pages with
    | none => simp
    | some m =>
      have hm := hmax m rfl
      simp [show m ≠ 0 by omega]
  | some p =>
    have hp := hpage p rfl
    cases max_pages with
    | none => simp [show p ≠ 0 by omega, show ¬ p = 0 by omega]
    | some m =>
      have hm := hmax m rfl
      simp [show p ≠ 0 by omega, show ¬ p = 0 by omega, show m ≠ 0 by omega]

/-- Witness for C5 at `total = 2000`, `per_page = 100`, `start_page = 5`:
the planner agrees with the spec formula, which evaluates to 16. -/
theorem C5_page_planner_witness :
    calculate_pages (some 5) 100 none 2000 =
      plannerSpecification 5 100 none 2000 ∧
    calculate_pages (some 5) 100 none 2000 = 16 :=
  ⟨(C5_page_planner (some 5) none 100 2000 (by decide)
      (fun p hp => by injection hp with h; omega)
      (fun m hm => by injection hm)).1,
   (C5_page_planner (some 5) none 100 2000 (by decide)
      (fun p hp => by injection hp with h; omega)
      (fun m hm => by injection hm)).2.2.1⟩

/-- The wrapper produced by `aretry` with a retry budget of zero makes
exactly one attempt and sleeps never. -/
theorem aretry_zero (op : Nat → Except E A) :
    aretry op 0 = RetryRun.mk (op 0) 1 0 := by
  unfold aretry retryLoop
  cases h : op 0 <;> simp [h]

/-- Claim C9: for every negative retry budget, the wrapper produced by
`aretry` makes exactly one attempt of the underlying operation (the loop
body never runs and the single fall-through call is made): a success value
is returned unchanged, an exception propagates, no sleep happens — the same
observable trace as a budget of zero. -/
theorem C9_negative_retries (op : Nat → Except E A) (r : Int) (hr : r < 0) :
    aretry op r = RetryRun.mk (op 0) 1 0 ∧ aretry op r = aretry op 0 := by
  have h0 : (r + 1).toNat = 0 := by omega
  have h : aretry op r = RetryRun.mk (op 0) 1 0 := by
    unfold aretry
    rw [h0]
    rfl
  exact ⟨h, by rw [h, aretry_zero]⟩

/-- Witness for C9 at budget `-1` and an operation failing on attempt 0:
the failure propagates after one attempt. -/
theorem C9_negative_retries_witness :
    aretry c3Op (-1) = RetryRun.mk (Except.error 0) 1 0 :=
  (C9_negative_retries c3Op (-1) (by decide)).1.trans (by decide)

/-- Claim C4: one `fetch_page` call recording one page's outcome appends
exactly one `Result` on success (errors untouched, nothing raised) and
exactly one `Error` on failure (results untouched), re-raising the failure
to the caller if and only if the policy is `raise`. -/
theorem C4_fetch_page_outcomes (f : PageFetcher T E) (q : Query F) :
    (∀ v : T,
      (f.fetch_page q (Except.ok v)).fetcher._results =
        f._results ++ [Result.mk (pyOr q.page (f._results.length + 1)) v] ∧
      (f.fetch_page q (Except.ok v)).fetcher._errors = f._errors ∧
      (f.fetch_page q (Except.ok v)).raised = none) ∧
    (∀ e : E,
      (f.fetch_page q (Except.error e)).fetcher._errors =
        f._errors ++ [Error.mk (pyOr q.page (f._results.length + 1)) e] ∧
      (f.fetch_page q (Except.error e)).fetcher._results = f._results ∧
      ((f.fetch_page q (Except.error e)).raised = some e ↔
        f.on_errors = OnErrors.raise)) := by
  refine ⟨fun v => ⟨rfl, rfl, rfl⟩, fun e => ⟨rfl, rfl, ?_⟩⟩
  cases h : f.on_errors <;> simp [PageFetcher.fetch_page, h]

/-- Witness for C4: under the `raise` policy a failure is recorded and
re-raised; the recorded error carries the descriptor's page number. -/
theorem C4_fetch_page_outcomes_witness :
    (c4Fetcher.fetch_page c4Query (Except.error 7)).raised = some 7 ∧
    (c4Fetcher.fetch_page c4Query (Except.error 7)).fetcher._errors =
      [Error.mk 4 7] :=
  ⟨((C4_fetch_page_outcomes c4Fetcher c4Query).2 7).2.2.mpr rfl,
   ((C4_fetch_page_outcomes c4Fetcher c4Query).2 7).1.trans (by decide)⟩

/-- Claim C10: when the descriptor's page is unset (`None` or `0`), the page
number recorded by `fetch_page` is not taken from the descriptor but
defaults to one more than the number of results already recorded when the
call begins, for successes and failures alike. -/
theorem C10_default_page_number (f : PageFetcher T E) (q : Query F)
    (hpage : q.page = none ∨ q.page = some 0) :
    (∀ v : T,
      (f.fetch_page q (Except.ok v)).fetcher._results.getLast? =
        some (Result.mk (f._results.length + 1) v)) ∧
    (∀ e : E,
      (f.fetch_page q (Except.error e)).fetcher._errors.getLast? =
        some (Error.mk (f._results.length + 1) e)) := by
  have hp : pyOr q.page (f._results.length + 1) = f._results.length + 1 := by
    rcases hpage with h | h <;> simp [pyOr, h]
  constructor
  · intro v
    simp [PageFetcher.fetch_page, hp, List.getLast?_concat]
  · intro e
    simp [PageFetcher.fetch_page, hp, List.getLast?_concat]

/-- Witness for C10: a page-less descriptor fetched after two recorded
results is recorded under page number 3. -/
theorem C10_default_page_number_witness :
    (c10Fetcher.fetch_page c10Query (Except.ok 33)).fetcher._results.getLast? =
      some (Result.mk 3 33) :=
  ((C10_default_page_number c10Fetcher c10Query (Or.inl rfl)).1 33).trans
    (by decide)

/-- Claim C8: `with_page` produces a descriptor whose three pagination
fields take the supplied values, falling back to the original's where an
argument is omitted, and whose every other field is identical to the
original's.  The original is a pure value in this model, so it is untouched
by construction. -/
theorem C8_with_page_frame (q : Query F) (p pp mp : Option Nat) :
    ((q.with_page p pp mp).item_id = q.item_id ∧
     (q.with_page p pp mp).filters = q.filters ∧
     (q.with_page p pp mp).fields = q.fields ∧
     (q.with_page p pp mp).«include» = q.«include» ∧
     (q.with_page p pp mp).metric_keys = q.metric_keys ∧
     (q.with_page p pp mp).metric_group_keys = q.metric_group_keys ∧
     (q.with_page p pp mp).sort = q.sort) ∧
    ((∀ v, p = some v → v ≠ 0 → (q.with_page p pp mp).page = some v) ∧
     (p = none → (q.with_page p pp mp).page = q.page)) ∧
    ((∀ v, pp = some v → v ≠ 0 → (q.with_page p pp mp).per_page = some v) ∧
     (pp = none → (q.with_page p pp mp).per_page = q.per_page)) ∧
    ((∀ v, mp = some v → v ≠ 0 → (q.with_page p pp mp).max_pages = some v) ∧
     (mp = none → (q.with_page p pp mp).max_pages = q.max_pages)) := by
  refine ⟨⟨rfl, rfl, rfl, rfl, rfl, rfl, rfl⟩, ⟨?_, ?_⟩, ⟨?_, ?_⟩, ⟨?_, ?_⟩⟩ <;>
    first
    | (intro v hv hnz
       subst hv
       simp [Query.with_page, pyOrOpt, truthy, hnz])
    | (intro hnone
       subst hnone
       simp [Query.with_page, pyOrOpt, truthy])

/-- Witness for C8: overriding page and max_pages on a populated descriptor
keeps its filters and substitutes the supplied pagination values. -/
theorem C8_with_page_frame_witness :
    (c8Query.with_page (some 7) none (some 2)).filters = c8Query.filters ∧
    (c8Query.with_page (some 7) none (some 2)).page = some 7 ∧
    (c8Query.with_page (some 7) none (some 2)).per_page = c8Query.per_page :=
  ⟨(C8_with_page_frame c8Query (some 7) none (some 2)).1.2.1,
   (C8_with_page_frame c8Query (some 7) none (some 2)).2.1.1 7 rfl (by decide),
   (C8_with_page_frame c8Query (some 7) none (some 2)).2.2.1.2 rfl⟩

/-- If the operation fails on every attempt before `k` and succeeds at `k`,
a retry loop entered at attempt `idx ≤ k` with enough fuel to reach `k`
returns the success value after `k - idx + 1` attempts and `k - idx`
sleeps. -/
theorem retryLoop_success (op : Nat → Except E A) (e : Nat → E) (a : A)
    (k : Nat) (hfail : ∀ i, i < k → op i = Except.error (e i))
    (hsucc : op k = Except.ok a) :
    ∀ fuel idx, idx ≤ k → k < idx + fuel →
      retryLoop op idx fuel =
        some (RetryRun.mk (Except.ok a) (k - idx + 1) (k - idx)) := by
  intro fuel
  induction fuel with
  | zero => intro idx h1 h2; omega
  | succ fuel ih =>
    intro idx h1 h2
    rcases Nat.eq_or_lt_of_le h1 with heq | hlt
    · unfold retryLoop
      rw [heq, hsucc]
      simp [heq]
    · unfold retryLoop
      rw [hfail idx hlt]
      have hfz : ¬ fuel = 0 := by omega
      have h3 : k - (idx + 1) + 1 = k - idx := by omega
      simp [if_neg hfz, ih (idx + 1) (by omega) (by omega), h3]

/-- If the operation fails on every attempt before `k` and the loop's fuel
runs out strictly before reaching attempt `k`, the loop re-raises the last
attempt's failure after `fuel` attempts and `fuel - 1` sleeps. -/
theorem retryLoop_exhausted (op : Nat → Except E A) (e : Nat → E) (k : Nat)
    (hfail : ∀ i, i < k → op i = Except.error (e i)) :
    ∀ fuel idx, 1 ≤ fuel → idx + fuel ≤ k →
      retryLoop op idx fuel =
        some (RetryRun.mk (Except.error (e (idx + fuel - 1))) fuel (fuel - 1)) := by
  intro fuel
  induction fuel with
  | zero => intro idx h1 h2; omega
  | succ fuel ih =>
    intro idx h1 h2
    unfold retryLoop
    rw [hfail idx (by omega)]
    cases Nat.eq_zero_or_pos fuel with
    | inl hz =>
      subst hz
      simp
    | inr hpos =>
      have hfz : ¬ fuel = 0 := by omega
      have h3 : idx + 1 + fuel - 1 = idx + (fuel + 1) - 1 := by omega
      have h4 : fuel - 1 + 1 = fuel := by omega
      simp [if_neg hfz, ih (idx + 1) (by omega) (by omega), h3, h4]

/-- Claim C3: for every retry budget `r ≥ 0` and operation failing exactly
`k` times before succeeding, the `aretry` wrapper returns the success value
after exactly `k + 1` attempts (with `k` sleeps of the fixed delay between
attempts) when `r ≥ k`, and re-raises the last attempt's exception after
exactly `r + 1` attempts when `r < k`; `r = 0` gives exactly one attempt. -/
theorem C3_aretry_budget (op : Nat → Except E A) (e : Nat → E) (a : A)
    (k : Nat) (r : Int) (hr : 0 ≤ r)
    (hfail : ∀ i, i < k → op i = Except.error (e i))
    (hsucc : op k = Except.ok a) :
    ((k : Int) ≤ r → aretry op r = RetryRun.mk (Except.ok a) (k + 1) k) ∧
    (r < (k : Int) →
      aretry op r =
        RetryRun.mk (Except.error (e r.toNat)) (r.toNat + 1) r.toNat) := by
  have hfuel : (r + 1).toNat = r.toNat + 1 := by omega
  constructor
  · intro hk
    unfold aretry
    rw [hfuel,
      retryLoop_success op e a k hfail hsucc (r.toNat + 1) 0 (by omega) (by omega)]
    simp
  · intro hk
    unfold aretry
    rw [hfuel,
      retryLoop_exhausted op e k hfail (r.toNat + 1) 0 (by omega) (by omega)]
    simp

/-- Witness for C3 with an operation failing exactly twice: budget 3 yields
the success value after 3 attempts and 2 sleeps, budget 1 re-raises the
second failure after 2 attempts. -/
theorem C3_aretry_budget_witness :
    aretry c3Op 3 = RetryRun.mk (Except.ok 42) 3 2 ∧
    aretry c3Op 1 = RetryRun.mk (Except.error 1) 2 1 :=
  ⟨(C3_aretry_budget c3Op (fun i => i) 42 2 3 (by decide)
      (fun i hi => by simp [c3Op, hi]) (by decide)).1 (by decide),
   (C3_aretry_budget c3Op (fun i => i) 42 2 1 (by decide)
      (fun i hi => by simp [c3Op, hi]) (by decide)).2 (by decide)⟩


/-- The batch loop yields no group exactly for the empty input. -/
theorem batchedGroups_eq_nil_iff (n : Nat) (l : List T) :
    batchedGroups n l = [] ↔ l = [] := by
  cases l <;> simp [batchedGroups]

/-- Zero items make zero groups under ceiling division. -/
theorem ceil_div_zero (n : Nat) (hn : 1 ≤ n) : ceil_div 0 n = 0 := by
  unfold ceil_div
  exact Nat.div_eq_of_lt (by omega)

/-- Peeling one group of `n` off `m ≥ 1` items accounts for one unit of
`ceil(m / n)`. -/
theorem ceil_div_peel (m n : Nat) (hn : 1 ≤ n) (hm : 1 ≤ m) :
    ceil_div (m - n) n + 1 = ceil_div m n := by
  unfold ceil_div
  have hr : m + n - 1 = m - 1 + n := by omega
  rw [hr, Nat.add_div_right _ (by omega : 0 < n)]
  rcases Nat.le_total m n with h | h
  · have h1 : m - n = 0 := by omega
    rw [h1, Nat.div_eq_of_lt (by omega : 0 + n - 1 < n),
      Nat.div_eq_of_lt (by omega : m - 1 < n)]
  · have h2 : m - n + n - 1 = m - 1 := by omega
    rw [h2]

/-- Joint correctness of the batch loop for group sizes `n ≥ 1`: the groups
concatenate back to the input, every group is nonempty of size at most `n`,
every group but the last has size exactly `n`, and there are
`ceil(length / n)` groups. -/
theorem batchedGroups_spec (n : Nat) (hn : 1 ≤ n) :
    ∀ l : List T,
      (batchedGroups n l).flatten = l ∧
      (∀ g ∈ batchedGroups n l, g ≠ [] ∧ g.length ≤ n) ∧
      (∀ g ∈ (batchedGroups n l).dropLast, g.length = n) ∧
      (batchedGroups n l).length = ceil_div l.length n := by
  have main : ∀ (L : Nat) (l : List T), l.length ≤ L →
      (batchedGroups n l).flatten = l ∧
      (∀ g ∈ batchedGroups n l, g ≠ [] ∧ g.length ≤ n) ∧
      (∀ g ∈ (batchedGroups n l).dropLast, g.length = n) ∧
      (batchedGroups n l).length = ceil_div l.length n := by
    intro L
    induction L with
    | zero =>
      intro l hl
      have hnil : l = [] := by
        cases l with
        | nil => rfl
        | cons x xs => simp at hl
      subst hnil
      exact ⟨by simp [batchedGroups], by simp [batchedGroups],
        by simp [batchedGroups], by simp [batchedGroups, ceil_div_zero n hn]⟩
    | succ L ih =>
      intro l hl
      cases l with
      | nil =>
        exact ⟨by simp [batchedGroups], by simp [batchedGroups],
          by simp [batchedGroups], by simp [batchedGroups, ceil_div_zero n hn]⟩
      | cons x xs =>
        have hxl : xs.length ≤ L := by simpa using hl
        have hrec := ih (xs.drop (n - 1)) (by simp; omega)
        have hgroup : batchedGroups n (x :: xs) =
            (x :: xs.take (n - 1)) :: batchedGroups n (xs.drop (n - 1)) := by
          simp [batchedGroups]
        refine ⟨?_, ?_, ?_, ?_⟩
        · rw [hgroup]
          simp [hrec.1]
        · rw [hgroup]
          intro g hg
          rcases List.mem_cons.mp hg with hh | ht
          · subst hh
            refine ⟨by simp, ?_⟩
            simp [List.length_take]
            omega
          · exact hrec.2.1 g ht
        · rw [hgroup]
          by_cases hd : xs.drop (n - 1) = []
          · rw [hd]
            simp [batchedGroups]
          · have hne : batchedGroups n (xs.drop (n - 1)) ≠ [] := by
              simpa [batchedGroups_eq_nil_iff] using hd
            rw [List.dropLast_cons_of_ne_nil hne]
            intro g hg
            rcases List.mem_cons.mp hg with hh | ht
            · subst hh
              have hxs : n - 1 < xs.length := by
                by_contra hcon
                exact hd (List.drop_eq_nil_of_le (by omega))
              simp [List.length_take]
              omega
            · exact hrec.2.2.1 g ht
        · rw [hgroup]
          simp only [List.length_cons, hrec.2.2.2]
          have hlen : (xs.drop (n - 1)).length = xs.length + 1 - n := by
            simp
            omega
          rw [hlen]
          exact ceil_div_peel (xs.length + 1) n hn (by omega)
  intro l
  exact main l.length l le_rfl

/-- Claim C7: for every input sequence and group size `n ≥ 1`, `batched`
yields groups whose concatenation equals the input, each nonempty of length
exactly `n` except possibly a shorter last group, `ceil(L / n)` groups in
all; for every `n < 1` construction fails with the invalid-argument error. -/
theorem C7_batched_contract (l : List T) (n : Int) :
    (1 ≤ n →
      batched l n = Except.ok (batchedGroups n.toNat l) ∧
      (batchedGroups n.toNat l).flatten = l ∧
      (∀ g ∈ batchedGroups n.toNat l, g ≠ [] ∧ g.length ≤ n.toNat) ∧
      (∀ g ∈ (batchedGroups n.toNat l).dropLast, g.length = n.toNat) ∧
      (batchedGroups n.toNat l).length = ceil_div l.length n.toNat) ∧
    (n < 1 → batched l n = Except.error "n must be at least one") := by
  constructor
  · intro hn
    have hspec := batchedGroups_spec n.toNat (by omega) l
    exact ⟨by simp [batched, show ¬ n < 1 by omega], hspec.1, hspec.2.1,
      hspec.2.2.1, hspec.2.2.2⟩
  · intro hn
    simp [batched, hn]

/-- Witness for C7 on seven items in groups of three: accepted, and the
groups concatenate back to the input with `ceil(7/3) = 3` groups. -/
theorem C7_batched_contract_witness :
    batched [1, 2, 3, 4, 5, 6, 7] (3 : Int) =
      Except.ok (batchedGroups 3 [1, 2, 3, 4, 5, 6, 7]) ∧
    (batchedGroups 3 [1, 2, 3, 4, 5, 6, 7]).flatten = [1, 2, 3, 4, 5, 6, 7] ∧
    (batchedGroups 3 [1, 2, 3, 4, 5, 6, 7]).length = ceil_div 7 3 :=
  ⟨((C7_batched_contract [1, 2, 3, 4, 5, 6, 7] 3).1 (by decide)).1,
   ((C7_batched_contract [1, 2, 3, 4, 5, 6, 7] 3).1 (by decide)).2.1,
   by
     have h := ((C7_batched_contract [1, 2, 3, 4, 5, 6, 7] 3).1 (by decide)).2.2.2.2
     simpa using h⟩

/-- Claim C6: for every fetcher state, `results` returns exactly the
recorded result values reordered into ascending page order with the page
numbers dropped, and `errors` returns exactly the recorded error records in
ascending page order, regardless of arrival order; in particular feeding
successful results for pages 5, 1, 3, 2, 4 in that completion order yields
`results` in page order 1..5. -/
theorem C6_ordered_views :
    (∀ (T E : Type) (f : PageFetcher T E),
      ∃ l : List (Result T), l.Perm f._results ∧
        List.Sorted (fun a b => a ≤ b) (l.map Result.page) ∧
        f.results = l.map Result.result) ∧
    (∀ (T E : Type) (f : PageFetcher T E),
      ∃ l : List (Error E), l.Perm f._errors ∧
        List.Sorted (fun a b => a ≤ b) (l.map Error.page) ∧
        f.errors = l) ∧
    c6Fetcher.results = [1, 2, 3, 4, 5] := by
  refine ⟨?_, ?_, by decide⟩
  · intro T E f
    refine ⟨List.insertionSort Result.byPage f._results,
      List.perm_insertionSort Result.byPage f._results, ?_, rfl⟩
    exact List.Pairwise.map Result.page (fun a b h => h)
      (List.sorted_insertionSort Result.byPage f._results)
  · intro T E f
    refine ⟨List.insertionSort Error.byPage f._errors,
      List.perm_insertionSort Error.byPage f._errors, ?_, rfl⟩
    exact List.Pairwise.map Error.page (fun a b h => h)
      (List.sorted_insertionSort Error.byPage f._errors)

/-- Witness for C6: the concrete completion order 5, 1, 3, 2, 4 comes back
in page order. -/
theorem C6_ordered_views_witness : c6Fetcher.results = [1, 2, 3, 4, 5] :=
  C6_ordered_views.2.2

theorem single_page_false_of_not (q : Query F) (h : ¬ inherentlySinglePage q) :
    q.is_single_page = false := by
  cases hsp : q.is_single_page
  · rfl
  · exact absurd ((is_single_page_iff q).mp hsp) h

/-- Claim C1 (amended): in the multi-item case, `HTTPClient.query` takes
the single-page path — returning the handshake payload's items with the
handshake as the only transport request — exactly when the descriptor is
single-page for the code (`max_pages` equals exactly 1, or an explicit page
number is set with no `per_page`/`max_pages` override) or the handshake
already contains all `total` items; in every other multi-item case it
proceeds to the planner and ends rate-limited or multi-page. -/
theorem C1_single_page_path (c : HTTPClient) (tr : Query F → Response T)
    (q : Query F) (resp : Response T) (items : List T)
    (hresp : tr (handshakeQuery c q) = resp)
    (hdata : resp.data = Payload.list items) (hne : items ≠ []) :
    ((queryRun c tr q).1 = QueryOutcome.singlePage items ↔
      (inherentlySinglePage q ∨ items.length = resp.total)) ∧
    ((queryRun c tr q).1 = QueryOutcome.singlePage items →
      (queryRun c tr q).2 = [handshakeQuery c q]) ∧
    (¬ (inherentlySinglePage q ∨ items.length = resp.total) →
      (∃ n, (queryRun c tr q).1 =
        QueryOutcome.rateLimited n resp.limit_remaining resp.limit_total) ∨
      (∃ n, (queryRun c tr q).1 = QueryOutcome.multiPage n)) := by
  have hempty : items.isEmpty = false := by simp [hne]
  by_cases hcond : inherentlySinglePage q ∨ items.length = resp.total
  · have hb : (q.is_single_page || (items.length == resp.total)) = true := by
      rcases hcond with h | h
      · simp [(is_single_page_iff q).mpr h]
      · simp [h]
    have hrun : queryRun c tr q =
        (QueryOutcome.singlePage items, [handshakeQuery c q]) := by
      unfold queryRun
      rw [hresp, hdata]
      simp [hempty, hb]
    exact ⟨by simp [hrun, hcond], fun _ => by simp [hrun],
      fun hn => absurd hcond hn⟩
  · have h1 : q.is_single_page = false :=
      single_page_false_of_not q (fun h => hcond (Or.inl h))
    have h2 : (items.length == resp.total) = false := by
      simp
      exact fun h => hcond (Or.inr h)
    by_cases hlim : (resp.limit_remaining : Int) <
        calculate_pages q.page (pyOr q.per_page c.per_page) q.max_pages resp.total
    · have hrun : (queryRun c tr q).1 =
          QueryOutcome.rateLimited
            (calculate_pages q.page (pyOr q.per_page c.per_page) q.max_pages
              resp.total)
            resp.limit_remaining resp.limit_total := by
        unfold queryRun
        rw [hresp, hdata]
        simp [hempty, h1, h2, hlim]
      refine ⟨by simp [hrun, hcond], fun hsp => ?_,
        fun _ => Or.inl ⟨calculate_pages q.page (pyOr q.per_page c.per_page)
          q.max_pages resp.total, hrun⟩⟩
      rw [hrun] at hsp
      simp at hsp
    · have hrun : (queryRun c tr q).1 =
          QueryOutcome.multiPage
            (calculate_pages q.page (pyOr q.per_page c.per_page) q.max_pages
              resp.total) := by
        unfold queryRun
        rw [hresp, hdata]
        simp [hempty, h1, h2, hlim]
      refine ⟨by simp [hrun, hcond], fun hsp => ?_,
        fun _ => Or.inr ⟨calculate_pages q.page (pyOr q.per_page c.per_page)
          q.max_pages resp.total, hrun⟩⟩
      rw [hrun] at hsp
      simp at hsp

/-- Counterexample to claim C1 as frozen: a descriptor with `max_pages = 1`
(and no explicit page number) whose handshake returns 3 of 30 items takes
the single-page path with a single transport request, although it is
neither inherently single-page in the spec's sense nor complete. -/
theorem C1_single_page_counterexample :
    (queryRun defaultClient c1Transport c1CounterQuery).1 =
      QueryOutcome.singlePage [1, 2, 3] ∧
    (queryRun defaultClient c1Transport c1CounterQuery).2 =
      [handshakeQuery defaultClient c1CounterQuery] ∧
    ¬ (specInherentlySinglePage c1CounterQuery ∨
        ([1, 2, 3] : List Nat).length =
          (c1Transport (handshakeQuery defaultClient c1CounterQuery)).total) :=
  ⟨by decide, by decide, by decide⟩

/-- Witness for C1 (amended): an explicit-page descriptor with no overrides
takes the single-page path on a 2-of-50 handshake. -/
theorem C1_single_page_path_witness :
    (queryRun defaultClient c1AmendedTransport c1AmendedQuery).1 =
      QueryOutcome.singlePage [5, 6] :=
  ((C1_single_page_path defaultClient c1AmendedTransport c1AmendedQuery
      (c1AmendedTransport (handshakeQuery defaultClient c1AmendedQuery)) [5, 6]
      rfl rfl (by decide)).1).mpr (Or.inl (by decide))

/-- Claim C2: on the multi-page path, if the planner's page count strictly
exceeds the remaining quota reported by the handshake, the run ends
rate-limited — citing the computed page count and the remaining/total
quota — with the handshake as the only transport request issued; otherwise
no rate-limited outcome occurs. -/
theorem C2_rate_limit_guard (c : HTTPClient) (tr : Query F → Response T)
    (q : Query F) (resp : Response T) (items : List T)
    (hresp : tr (handshakeQuery c q) = resp)
    (hdata : resp.data = Payload.list items) (hne : items ≠ [])
    (hsingle : ¬ inherentlySinglePage q)
    (hlen : items.length ≠ resp.total) :
    ((resp.limit_remaining : Int) <
        calculate_pages q.page (pyOr q.per_page c.per_page) q.max_pages
          resp.total →
      (queryRun c tr q).1 =
        QueryOutcome.rateLimited
          (calculate_pages q.page (pyOr q.per_page c.per_page) q.max_pages
            resp.total)
          resp.limit_remaining resp.limit_total ∧
      (queryRun c tr q).2 = [handshakeQuery c q]) ∧
    (calculate_pages q.page (pyOr q.per_page c.per_page) q.max_pages
        resp.total ≤ (resp.limit_remaining : Int) →
      ∀ m rem tot, (queryRun c tr q).1 ≠ QueryOutcome.rateLimited m rem tot) := by
  have hempty : items.isEmpty = false := by simp [hne]
  have h1 : q.is_single_page = false := single_page_false_of_not q hsingle
  have h2 : (items.length == resp.total) = false := by
    simp
    exact hlen
  constructor
  · intro hlim
    have hrun : queryRun c tr q =
        (QueryOutcome.rateLimited
          (calculate_pages q.page (pyOr q.per_page c.per_page) q.max_pages
            resp.total)
          resp.limit_remaining resp.limit_total, [handshakeQuery c q]) := by
      unfold queryRun
      rw [hresp, hdata]
      simp [hempty, h1, h2, hlim]
    exact ⟨by simp [hrun], by simp [hrun]⟩
  · intro hlim m rem tot
    have hnl : ¬ ((resp.limit_remaining : Int) <
        calculate_pages q.page (pyOr q.per_page c.per_page) q.max_pages
          resp.total) := not_lt.mpr hlim
    have hrun : (queryRun c tr q).1 =
        QueryOutcome.multiPage
          (calculate_pages q.page (pyOr q.per_page c.per_page) q.max_pages
            resp.total) := by
      unfold queryRun
      rw [hresp, hdata]
      simp [hempty, h1, h2, hnl]
    rw [hrun]
    simp

/-- Witness for C2 with the spec's numbers: 21 required pages against 10
remaining of 500 aborts rate-limited after the handshake only. -/
theorem C2_rate_limit_guard_witness :
    (queryRun defaultClient c2Transport c2Query).1 =
      QueryOutcome.rateLimited 21 10 500 ∧
    (queryRun defaultClient c2Transport c2Query).2 =
      [handshakeQuery defaultClient c2Query] := by
  have h := (C2_rate_limit_guard defaultClient c2Transport c2Query
      (c2Transport (handshakeQuery defaultClient c2Query)) [7]
      rfl rfl (by decide) (by decide) (by decide)).1 (by decide)
  exact ⟨h.1.trans (by decide), h.2⟩

end BavApi
